import Mathlib

/-!
Shallow embedding of the opendatapy tabular resource engine
(src/opendatapy/resources.py and src/opendatapy/helpers.py) and of the
argument-validation portion of src/opendatafit/datapackage.py.

Tables mirror pandas DataFrames exactly as the source uses them: a list of
promoted index columns (the empty list stands for the implicit default
RangeIndex 0..n-1), a list of named value columns, and a row count.  Cell
values are modelled by the inductive type Val (integers, strings, booleans,
None), covering the JSON record scalars the source round-trips.  Python
exceptions become an explicit error type; in-place mutation of the resource
dict is modelled by returning the resulting state together with the raised
error, so the state reflects every mutation performed before the raise.
-/

namespace Odp

/-- Decidable equality for Except results, used to evaluate the embedded
operations on concrete inputs. -/
instance exceptDecEq {ε α : Type} [DecidableEq ε] [DecidableEq α] :
    DecidableEq (Except ε α) := fun x y =>
  match x, y with
  | .ok a, .ok b =>
      if h : a = b then isTrue (by rw [h])
      else isFalse (by intro hh; cases hh; exact h rfl)
  | .error a, .error b =>
      if h : a = b then isTrue (by rw [h])
      else isFalse (by intro hh; cases hh; exact h rfl)
  | .ok _, .error _ => isFalse (by intro hh; cases hh)
  | .error _, .ok _ => isFalse (by intro hh; cases hh)

/-- Cell values carried by tables and records (JSON scalars). -/
inductive Val where
  | vint (n : Int)
  | vstr (s : String)
  | vbool (b : Bool)
  | vnone
deriving DecidableEq, Repr

/-- pandas DataFrame as used by the source: promoted index columns (empty =
default RangeIndex), named value columns, and the row count. -/
structure DF where
  indexCols : List (String × List Val)
  valueCols : List (String × List Val)
  nrows : Nat
deriving DecidableEq, Repr

/-- data.columns -/
def DF.columns (df : DF) : List String := df.valueCols.map Prod.fst

/-- Number of value columns. -/
def DF.ncols (df : DF) : Nat := df.valueCols.length

/-- pandas df.empty: True when any axis is of length 0, i.e. no rows or no
(value) columns; the index does not count as a column. -/
def DF.isEmpty (df : DF) : Bool := df.nrows = 0 || df.valueCols.isEmpty

/-- helpers.has_user_defined_index: the index is not the default
RangeIndex(0, len(df)).  In this model a default index is indexCols = []. -/
def has_user_defined_index (df : DF) : Bool := !df.indexCols.isEmpty

/-- Row numbers 0..n-1 as values, for the column pandas reset_index
synthesizes out of a default unnamed RangeIndex. -/
def rangeVals (n : Nat) : List Val := (List.range n).map (fun i => Val.vint (Int.ofNat i))

/-- pandas reset_index(): demote the index to leading plain columns; a
default (unnamed RangeIndex) index is inserted as a leading column named
"index" holding the row numbers. -/
def DF.resetIndex (df : DF) : DF :=
  if df.indexCols.isEmpty then
    ⟨[], ("index", rangeVals df.nrows) :: df.valueCols, df.nrows⟩
  else
    ⟨[], df.indexCols ++ df.valueCols, df.nrows⟩

/-- pandas set_index(keys): promote the named value columns to the index (the
previous index is discarded); none when a key names no column (KeyError). -/
def DF.setIndex (df : DF) (keys : List String) : Option DF :=
  match keys.mapM (fun k => df.valueCols.find? (fun c => c.fst = k)) with
  | some cols =>
      some ⟨cols, df.valueCols.filter (fun c => !(keys.contains c.fst)), df.nrows⟩
  | none => none

/-- Positional column rename, pandas data.columns = names; only reached when
the lengths match (pandas raises ValueError otherwise, checked at the call
site). -/
def DF.renameCols (df : DF) (names : List String) : DF :=
  ⟨df.indexCols, List.zipWith (fun n c => (n, c.snd)) names df.valueCols, df.nrows⟩

/-- data[cols]: select and reorder value columns by name. -/
def DF.selectCols (df : DF) (cols : List String) : DF :=
  ⟨df.indexCols, cols.filterMap (fun c => df.valueCols.find? (fun p => p.fst = c)), df.nrows⟩

/-- One serialized record row: an ordered mapping column name → value. -/
abbrev Record := List (String × Val)

/-- Row r of a data frame as a record over its value columns. -/
def DF.rowAt (df : DF) (r : Nat) : Record :=
  df.valueCols.map (fun c => (c.fst, c.snd.getD r Val.vnone))

/-- pandas to_dict(orient="records"): one record per row, row order kept. -/
def DF.toRecords (df : DF) : List Record :=
  (List.range df.nrows).map df.rowAt

/-- First value bound to key k in a record (Python dict lookup). -/
def lookupRec (k : String) (r : Record) : Option Val :=
  (r.find? (fun p => p.fst = k)).map Prod.snd

/-- pandas DataFrame.from_dict over record rows, for uniform records (every
record carries the same keys in the same order, which is what to_dict
produces); columns appear in key order, rows in record order.  Ragged
records would be NaN-filled by pandas; NaN is outside the modelled value
domain, so those return none. -/
def fromDict : List Record → Option DF
  | [] => some ⟨[], [], 0⟩
  | r0 :: rest =>
      let keys := r0.map Prod.fst
      if (r0 :: rest).all (fun r => r.map Prod.fst = keys) then
        some ⟨[], keys.map (fun k => (k, (r0 :: rest).filterMap (lookupRec k))),
              (r0 :: rest).length⟩
      else none

/-- One concrete schema field: canonical name, mutable title, and the opaque
descriptive metadata copied from its format field. -/
structure SField where
  name : String
  title : Option String := none
  meta : List (String × String) := []
deriving DecidableEq, Repr

/-- One format (template) field: position spec string plus the field body. -/
structure FField where
  index : String
  name : String
  title : Option String := none
  meta : List (String × String) := []
deriving DecidableEq, Repr

/-- format_field.pop("index"): the field body without its position spec. -/
def FField.toS (f : FField) : SField := ⟨f.name, f.title, f.meta⟩

/-- Resource "format": the reusable template (fields plus optional
primaryKey). -/
structure FormatT where
  fields : List FField
  primaryKey : Option (List String) := none
deriving DecidableEq, Repr

/-- Generated schema: slots may be unset (None in the source). -/
structure Schema where
  fields : List (Option SField)
  primaryKey : Option (List String) := none
deriving DecidableEq, Repr

/-- TabularDataResource state: name, format, optional schema (none models a
falsy schema entry), and the data frame. -/
structure Resource where
  name : String
  format : FormatT
  schema : Option Schema
  df : DF
deriving DecidableEq, Repr

/-- Python exceptions raised by the embedded code.  indexOutOfRange is the
re-raised IndexError of _generate_schema, carrying the offending position
spec, the resource name, the format field names and the data. -/
inductive Err where
  | valueError (msg : String)
  | typeError (msg : String)
  | keyError (msg : String)
  | indexError (msg : String)
  | indexOutOfRange (index : String) (resourceName : String)
      (formatFieldNames : List String) (data : DF)
deriving DecidableEq, Repr

/-- Errors internal to the schema-generation loop, before _generate_schema
decorates them: an out-of-range integer position (Python IndexError) or a
malformed position spec (Python ValueError from int()). -/
inductive GenErr where
  | oob (index : String)
  | badSpec (msg : String)
deriving DecidableEq, Repr

/-- The colon character, written via its code point. -/
def colonChar : Char := Char.ofNat 58

/-- The minus character, written via its code point. -/
def minusChar : Char := Char.ofNat 45

/-- str.split(sep) over the character list (kernel-reducible form of
String.splitOn): n separators yield n+1 parts, empty parts kept. -/
def splitCharsOn (sep : Char) : List Char → List (List Char)
  | [] => [[]]
  | c :: cs =>
      if c = sep then [] :: splitCharsOn sep cs
      else
        match splitCharsOn sep cs with
        | [] => [[c]]
        | p :: ps => (c :: p) :: ps

/-- index.split(":") from the source. -/
def splitOnColon (s : String) : List String :=
  (splitCharsOn colonChar s.data).map (fun l => String.mk l)

/-- Decimal digit value of a character, none for a non-digit. -/
def digitVal (c : Char) : Option Nat :=
  if 48 ≤ c.toNat ∧ c.toNat ≤ 57 then some (c.toNat - 48) else none

/-- Accumulate decimal digits; none at the first non-digit. -/
def parseDigitsAux : Nat → List Char → Option Nat
  | acc, [] => some acc
  | acc, c :: cs =>
      match digitVal c with
      | some d => parseDigitsAux (acc * 10 + d) cs
      | none => none

/-- Python int(str) on an optional minus sign followed by decimal digits
(none models the ValueError).  Kernel-reducible replacement for
String.toInt?; the source's position specs are exactly of this shape. -/
def pyToIntChars : List Char → Option Int
  | [] => none
  | c :: cs =>
      if c = minusChar then
        match cs with
        | [] => none
        | _ :: _ => (parseDigitsAux 0 cs).map (fun n => -(n : Int))
      else (parseDigitsAux 0 (c :: cs)).map (fun n => (n : Int))

/-- Python int() on a string. -/
def pyToInt (s : String) : Option Int := pyToIntChars s.data

/-- Python int(part) if part else None, for one slice component. -/
def parsePart (s : String) : Except GenErr (Option Int) :=
  if s = "" then .ok none
  else
    match pyToInt s with
    | some i => .ok (some i)
    | none => .error (.badSpec s)

/-- Python slice bound resolution for step 1 over a list of length n: an
omitted bound takes the default, a negative bound counts from the end
clamped at 0, a non-negative bound is clamped at n. -/
def resolveBound (n : Nat) (dflt : Nat) : Option Int → Nat
  | none => dflt
  | some i => if i < 0 then (i + n).toNat else min i.toNat n

/-- One iteration of the loop in TabularDataResource._generate_schema.  A
slice-addressed field is resolved with Python slice clamping and cloned once
per selected position, the 0-based offset within the selection appended to
the base name; the clone at selected position j is the one with offset
j - lo.  An integer-addressed field is assigned directly with Python
list-assignment semantics: negative positions wrap, positions out of range
raise IndexError.  Stepped (three-part) slices never occur in this
repository's formats and are mapped to the ValueError case. -/
def applyFField (f : FField) (slots : List (Option SField)) :
    Except GenErr (List (Option SField)) :=
  match splitOnColon f.index with
  | [bs, es] =>
      match parsePart bs, parsePart es with
      | .error e, _ => .error e
      | .ok _, .error e => .error e
      | .ok b, .ok e =>
          let n := slots.length
          let lo := resolveBound n 0 b
          let hi := resolveBound n n e
          .ok (slots.mapIdx (fun j v =>
            if lo ≤ j ∧ j < hi then
              some { f.toS with name := f.name ++ toString (j - lo) }
            else v))
  | [_] =>
      match pyToInt f.index with
      | none => .error (.badSpec f.index)
      | some i =>
          let n := slots.length
          if 0 ≤ i ∧ i < (n : Int) then .ok (slots.set i.toNat (some f.toS))
          else if i < 0 ∧ -i ≤ (n : Int) then .ok (slots.set (i + n).toNat (some f.toS))
          else .error (.oob f.index)
  | _ => .error (.badSpec f.index)

/-- Fold the format fields, in template order, over the slot array. -/
def genFields : List FField → List (Option SField) →
    Except GenErr (List (Option SField))
  | [], slots => .ok slots
  | f :: fs, slots =>
      match applyFField f slots with
      | .error e => .error e
      | .ok slots2 => genFields fs slots2

/-- Number of schema slots allocated for a table: its column count, counting
a user-defined index as demoted columns (len(data.reset_index().columns)). -/
def schemaSlotCount (data : DF) : Nat :=
  if has_user_defined_index data then data.resetIndex.ncols else data.ncols

/-- TabularDataResource._generate_schema: allocate one unset slot per
(demoted) data column, process the format fields in order, and return the
schema with the format's primaryKey copied in when present.  No check is
made that every slot got set. -/
def generate_schema (res : Resource) (data : DF) : Except Err Schema :=
  match genFields res.format.fields (List.replicate (schemaSlotCount data) none) with
  | .error (.oob idx) =>
      .error (.indexOutOfRange idx res.name (res.format.fields.map FField.name) data)
  | .error (.badSpec m) => .error (.valueError m)
  | .ok slots => .ok ⟨slots, res.format.primaryKey⟩

/-- TabularDataResource.__bool__: populated / unpopulated / inconsistent. -/
def resourceBool (res : Resource) : Except Err Bool :=
  if res.schema.isSome && !res.df.isEmpty then .ok true
  else if res.df.isEmpty then .ok false
  else .error (.valueError ("Populated resource " ++ res.name ++ " missing data or schema"))

/-- Title-refresh loop of the data setter: fields[i]["title"] = columns[i],
stopping at the Python error when a slot is unset (TypeError, None does not
support item assignment) or the column count exceeds the field count
(IndexError).  Returns the fields holding every title written before the
error. -/
def setTitles : List (Option SField) → List String → List (Option SField) × Option Err
  | flds, [] => (flds, none)
  | [], _ :: _ => ([], some (.indexError "list index out of range"))
  | none :: flds, _ :: _ =>
      (none :: flds, some (.typeError "NoneType object does not support item assignment"))
  | some f :: flds, c :: cs =>
      (some { f with title := some c } :: (setTitles flds cs).1, (setTitles flds cs).2)

/-- schema_cols, the comprehension [field["name"] for field in fields];
TypeError on an unset slot. -/
def namesOfFields : List (Option SField) → Except Err (List String)
  | [] => .ok []
  | none :: _ => .error (.typeError "NoneType object is not subscriptable")
  | some f :: flds =>
      match namesOfFields flds with
      | .error e => .error e
      | .ok ns => .ok (f.name :: ns)

/-- Tail of the data setter, once a schema is in hand: demote a user-defined
index, refresh schema field titles from the incoming column labels, rename
the table columns positionally to the schema names, and promote the schema
primaryKey to the index.  The returned resource reflects the mutations
performed before any raised error. -/
def reconcileWith (res : Resource) (data : DF) (sch : Schema) : Resource × Option Err :=
  let res1 : Resource := { res with schema := some sch }
  let data1 := if has_user_defined_index data then data.resetIndex else data
  let flds := (setTitles sch.fields data1.columns).1
  let te := (setTitles sch.fields data1.columns).2
  let sch1 : Schema := ⟨flds, sch.primaryKey⟩
  let res2 : Resource := { res1 with schema := some sch1 }
  match te with
  | some e => (res2, some e)
  | none =>
    match namesOfFields flds with
    | .error e => (res2, some e)
    | .ok schemaCols =>
      match (if data1.columns = schemaCols then Except.ok data1
            else if data1.columns.length = schemaCols.length then
              Except.ok (data1.renameCols schemaCols)
            else Except.error (Err.valueError "Length mismatch")) with
      | .error e => (res2, some e)
      | .ok data2 =>
        match sch1.primaryKey with
        | none => (res2, some (.keyError "primaryKey"))
        | some pk =>
          match data2.setIndex pk with
          | none => (res2, some (.keyError "keys not found in columns"))
          | some data3 => ({ res2 with df := data3 }, none)

/-- TabularDataResource.data setter: generate a schema when the resource is
unpopulated (its __bool__ is falsy), then reconcile the incoming table
against the schema in hand. -/
def setData (res : Resource) (data : DF) : Resource × Option Err :=
  match resourceBool res with
  | .error e => (res, some e)
  | .ok populated =>
    match (match populated with
          | true =>
            match res.schema with
            | some sch => Except.ok sch
            | none => Except.error (Err.valueError "unreachable: populated implies schema")
          | false => generate_schema res data) with
    | .error e => (res, some e)
    | .ok sch => reconcileWith res data sch

/-- Data part of TabularDataResource.to_dict: reset_index, then one record
per row (to_dict orient records). -/
def serialize (res : Resource) : List Record := res.df.resetIndex.toRecords

/-- TabularDataResource.__init__ from a resource dict: name, format (falsy
→ none), schema (falsy → none) and inline record data. -/
def initResource (name : String) (format : Option FormatT) (schema : Option Schema)
    (records : List Record) : Except Err Resource :=
  match fromDict records with
  | none => .error (.typeError "ragged records are outside the modelled value domain")
  | some data =>
    match format with
    | none => .error (.valueError (name ++ ": tabular data resource format cannot be empty"))
    | some fmt =>
      match schema with
      | some sch =>
        if !data.isEmpty then
          match namesOfFields sch.fields with
          | .error e => .error e
          | .ok cols =>
            if cols.all (fun c => data.columns.contains c)
                && data.columns.all (fun c => cols.contains c) then
              let data1 := data.selectCols cols
              match sch.primaryKey with
              | some pk =>
                match data1.setIndex pk with
                | some d2 => .ok ⟨name, fmt, some sch, d2⟩
                | none => .error (.keyError "primaryKey columns not found")
              | none => .ok ⟨name, fmt, some sch, data1⟩
            else
              .error (.valueError (name ++ " resource data columns and schema fields do not match"))
        else .ok ⟨name, fmt, some sch, data⟩
      | none =>
        if data.isEmpty then .ok ⟨name, fmt, none, data⟩
        else .error (.valueError ("Populated resource " ++ name ++ " missing data or schema"))

/-- Python runtime types relevant to set_argument; tNumberUnion models the
union object float | int that TYPE_MAP binds to "number", which compares
unequal to every concrete runtime type. -/
inductive PyType where
  | tStr | tBool | tInt | tNone | tNumberUnion
deriving DecidableEq, Repr

/-- type(value) for the modelled values. -/
def typeOfVal : Val → PyType
  | .vstr _ => .tStr
  | .vbool _ => .tBool
  | .vint _ => .tInt
  | .vnone => .tNone

/-- TYPE_MAP from datapackage.py; absent keys give none (the source falls
back to False, which likewise matches no runtime type). -/
def TYPE_MAP : String → Option PyType
  | "string" => some .tStr
  | "boolean" => some .tBool
  | "number" => some .tNumberUnion
  | _ => none

/-- Python truthiness of the modelled values. -/
def pyTruthy : Val → Bool
  | .vnone => false
  | .vint n => !(n = 0)
  | .vbool b => b
  | .vstr s => !(s = "")

/-- Python == on the modelled values (True == 1 and False == 0 hold). -/
def pyEq : Val → Val → Bool
  | .vint a, .vint b => a = b
  | .vstr a, .vstr b => a = b
  | .vbool a, .vbool b => a = b
  | .vbool a, .vint b => (if a then (1 : Int) else 0) = b
  | .vint a, .vbool b => a = (if b then (1 : Int) else 0)
  | .vnone, .vnone => true
  | _, _ => false

/-- One entry of an interface enum declaration. -/
structure EnumEntry where
  value : Val
deriving DecidableEq, Repr

/-- Argument interface declaration; absent keys are none.  The source reads
interface["null"] unconditionally, so a missing "null" key is a KeyError. -/
structure Interface where
  profile : Option String := none
  type : String
  enum : Option (List EnumEntry) := none
  null : Option Bool := none
deriving DecidableEq, Repr

/-- Errors raised by the validation portion of set_argument. -/
inductive ArgErr where
  | invalidProfile (profile : Option String)
  | invalidType (expectedType : String) (actualType : PyType)
  | invalidEnumValue (value : Val) (allowedValues : List Val)
  | invalidValue (value : Val)
  | keyError (key : String)
deriving DecidableEq, Repr

/-- Validation portion of datapackage.set_argument: profile check, runtime
type check, enum membership check, then nullability check, in source
order. -/
def set_argument_checks (interface : Interface) (value : Val) : Except ArgErr Unit :=
  if interface.profile = some "tabular-data-resource"
      || interface.profile = some "parameter-tabular-data-resource" then
    .error (.invalidProfile interface.profile)
  else
    let actual := typeOfVal value
    let typeOk :=
      match TYPE_MAP interface.type with
      | some t => t == actual
      | none => false
    if !typeOk then .error (.invalidType interface.type actual)
    else
      match (match interface.enum with
            | some entries =>
              if !entries.isEmpty then
                let allowedValues := entries.map EnumEntry.value
                if allowedValues.any (fun a => pyEq value a) then Except.ok ()
                else Except.error (ArgErr.invalidEnumValue value allowedValues)
              else Except.ok ()
            | none => Except.ok ()) with
      | .error e => .error e
      | .ok _ =>
        match interface.null with
        | none => .error (.keyError "null")
        | some nullable =>
          if !nullable then
            if !(pyTruthy value) then .error (.invalidValue value) else .ok ()
          else .ok ()

/-- Field names and metadata (everything except the mutable titles) of a
resource's schema, together with its primaryKey. -/
def fieldSkeleton (o : Option SField) : Option (String × List (String × String)) :=
  o.map (fun f => (f.name, f.meta))

/-- Schema skeleton of a resource: field names, order, count and metadata
plus primaryKey, ignoring only the mutable title labels. -/
def schemaSkeleton (res : Resource) :
    Option (List (Option (String × List (String × String))) × Option (List String)) :=
  res.schema.map (fun sch => (sch.fields.map fieldSkeleton, sch.primaryKey))

/-- Canonical field names of a resource's schema (unset slots dropped). -/
def schemaNames (res : Resource) : Option (List (Option String)) :=
  res.schema.map (fun sch => sch.fields.map (fun o => o.map SField.name))

/-- What one format field writes at slot j of an n-slot array: the direct
field body for a matching integer position, the offset-named clone for a
covered slice position, none when the field does not touch slot j. -/
def cloneAt (f : FField) (n j : Nat) : Option SField :=
  match splitOnColon f.index with
  | [bs, es] =>
      match parsePart bs, parsePart es with
      | .ok b, .ok e =>
          let lo := resolveBound n 0 b
          let hi := resolveBound n n e
          if lo ≤ j ∧ j < hi then
            some { f.toS with name := f.name ++ toString (j - lo) }
          else none
      | _, _ => none
  | [_] =>
      match pyToInt f.index with
      | some i =>
          if 0 ≤ i ∧ i < (n : Int) then (if i.toNat = j then some f.toS else none)
          else if i < 0 ∧ -i ≤ (n : Int) then (if (i + n).toNat = j then some f.toS else none)
          else none
      | none => none
  | _ => none

/-- Last-write-wins view of a template at slot j: the value written by the
last template field covering j, scanning later fields first. -/
def lastWrite (fs : List FField) (n j : Nat) : Option SField :=
  fs.reverse.findSome? (fun f => cloneAt f n j)

/-- Empty data frame (no columns, no rows). -/
def emptyDF : DF := ⟨[], [], 0⟩

/-- Test fixture: template with fields key, b at positions 0, 1 and primary
key key. -/
def fmtC1 : FormatT := ⟨[⟨"0", "key", none, []⟩, ⟨"1", "b", none, []⟩], some ["key"]⟩

/-- Test fixture: schema with canonical fields key, b and primary key key. -/
def schC1 : Schema := ⟨[some ⟨"key", none, []⟩, some ⟨"b", none, []⟩], some ["key"]⟩

/-- Test fixture: a populated resource (schema set, one data row, key
promoted). -/
def resC1 : Resource := ⟨"r", fmtC1, some schC1, ⟨[("key", [Val.vint 1])], [("b", [Val.vint 2])], 1⟩⟩

/-- Test fixture: replacement table whose second column is renamed from b to
c, so its column set differs from the schema field-name set. -/
def dfC1 : DF := ⟨[], [("key", [Val.vint 3]), ("c", [Val.vint 4])], 1⟩

/-- Test fixture: template with a single field a at position 0 and primary
key a. -/
def fmtC2 : FormatT := ⟨[⟨"0", "a", none, []⟩], some ["a"]⟩

/-- Test fixture: empty resource over fmtC2. -/
def resC2 : Resource := ⟨"r", fmtC2, none, emptyDF⟩

/-- Test fixture: a two-column table, so the one-field template leaves slot
1 unset during schema generation. -/
def dfC2 : DF := ⟨[], [("x", [Val.vint 1]), ("y", [Val.vint 2])], 1⟩

/-- Test fixture: template with fields a, b at positions 0, 1 and primary
key b, which is not a prefix of the schema field order. -/
def fmtC3 : FormatT := ⟨[⟨"0", "a", none, []⟩, ⟨"1", "b", none, []⟩], some ["b"]⟩

/-- Test fixture: empty resource over fmtC3. -/
def resC3 : Resource := ⟨"r", fmtC3, none, emptyDF⟩

/-- Test fixture: one-row table with caller-supplied labels x, y. -/
def rowsC3 : DF := ⟨[], [("x", [Val.vint 1]), ("y", [Val.vint 2])], 1⟩

/-- Resource produced by the first reconciliation of rowsC3 against fmtC3:
column b is promoted to the index. -/
def resC3r1 : Resource :=
  { resC3 with
      schema := some ⟨[some ⟨"a", some "x", []⟩, some ⟨"b", some "y", []⟩], some ["b"]⟩,
      df := ⟨[("b", [Val.vint 2])], [("a", [Val.vint 1])], 1⟩ }

/-- Deserialized serialization of resC3r1: the demoted key column b now
leads, ahead of a. -/
def dfC3back : DF := ⟨[], [("b", [Val.vint 2]), ("a", [Val.vint 1])], 1⟩

/-- Resource produced by reconciling dfC3back into a fresh resource over
fmtC3: the positional rename pushes b's value into field a and vice versa. -/
def resC3r2 : Resource :=
  { resC3 with
      schema := some ⟨[some ⟨"a", some "b", []⟩, some ⟨"b", some "a", []⟩], some ["b"]⟩,
      df := ⟨[("b", [Val.vint 1])], [("a", [Val.vint 2])], 1⟩ }

/-- Test fixture: populated resource with a schema lacking a primaryKey and
a table on the implicit default row numbering (no promoted key). -/
def resC4 : Resource :=
  ⟨"r", fmtC1, some ⟨[some ⟨"a", none, []⟩], none⟩, ⟨[], [("a", [Val.vint 7, Val.vint 8])], 2⟩⟩

/-- Test fixture: template with single field y at position 0, primary key
y. -/
def fmtC5 : FormatT := ⟨[⟨"0", "y", none, []⟩], some ["y"]⟩

/-- Test fixture: resource holding a schema (field x, primary key x)
together with an empty table. -/
def resC5 : Resource := ⟨"r", fmtC5, some ⟨[some ⟨"x", none, []⟩], some ["x"]⟩, emptyDF⟩

/-- Test fixture: one-column, one-row replacement table. -/
def dfC5 : DF := ⟨[], [("t", [Val.vint 1])], 1⟩

/-- Test fixture: template whose primary key consumes its only field. -/
def fmtC6 : FormatT := ⟨[⟨"0", "k", none, []⟩], some ["k"]⟩

/-- Test fixture: empty resource over fmtC6. -/
def resC6 : Resource := ⟨"r", fmtC6, none, emptyDF⟩

/-- Test fixture: non-empty one-column table whose only column is the
primary key. -/
def dfC6 : DF := ⟨[], [("k", [Val.vint 5])], 1⟩

/-- Resource produced by reconciling dfC6 into resC6: the sole column is
promoted to the index, leaving zero value columns. -/
def resC6r : Resource :=
  { resC6 with
      schema := some ⟨[some ⟨"k", some "k", []⟩], some ["k"]⟩,
      df := ⟨[("k", [Val.vint 5])], [], 1⟩ }

/-- Test fixture: the schema fields of schC1 as plain schema fields. -/
def sfsC1 : List SField := [⟨"key", none, []⟩, ⟨"b", none, []⟩]

/-- Test fixture: resource whose template addresses position 10. -/
def resW8 : Resource := ⟨"r", ⟨[⟨"10", "f", none, []⟩], none⟩, none, emptyDF⟩

/-- Test fixture: three-column table for the out-of-range example. -/
def dfW8 : DF := ⟨[], [("a", []), ("b", []), ("c", [])], 0⟩

/-- Test fixture: interface declaring type string and an enum of red and
blue, with no null key (as written in the claim). -/
def ifaceEnum : Interface := ⟨none, "string", some [⟨Val.vstr "red"⟩, ⟨Val.vstr "blue"⟩], none⟩

/-- Test fixture: interface declaring type string and null false. -/
def ifaceNullFalse : Interface := ⟨none, "string", none, some false⟩

/-- Characterization of __bool__ returning populated. -/
theorem resourceBool_ok_true_iff (res : Resource) :
    resourceBool res = .ok true ↔ (res.schema.isSome = true ∧ res.df.isEmpty = false) := by
  unfold resourceBool
  split_ifs with h1 h2 <;> simp_all

/-- Characterization of __bool__ returning unpopulated. -/
theorem resourceBool_ok_false_iff (res : Resource) :
    resourceBool res = .ok false ↔ res.df.isEmpty = true := by
  unfold resourceBool
  split_ifs with h1 h2 <;> simp_all

/-- Characterization of __bool__ raising: a non-empty table without a
schema. -/
theorem resourceBool_error_iff (res : Resource) :
    (∃ e, resourceBool res = .error e) ↔
      (res.schema = none ∧ res.df.isEmpty = false) := by
  unfold resourceBool
  split_ifs with h1 h2
  · simp only [Bool.and_eq_true, Bool.not_eq_true'] at h1
    constructor
    · rintro ⟨e, he⟩; cases he
    · rintro ⟨hn, _⟩; rw [hn] at h1; simp at h1
  · constructor
    · rintro ⟨e, he⟩; cases he
    · rintro ⟨_, hne⟩; rw [h2] at hne; cases hne
  · constructor
    · intro _
      have hne : res.df.isEmpty = false := by
        cases hh : res.df.isEmpty
        · rfl
        · exact absurd hh h2
      refine ⟨?_, hne⟩
      cases hs : res.schema with
      | none => rfl
      | some s => exact absurd (by simp [hs, hne]) h1
    · intro _; exact ⟨_, rfl⟩

/-- The title-refresh loop does not change field names, metadata, order or
count: the skeletons of the fields are untouched. -/
theorem setTitles_fst_map_skeleton (flds : List (Option SField)) (cols : List String) :
    (setTitles flds cols).1.map fieldSkeleton = flds.map fieldSkeleton := by
  induction flds generalizing cols with
  | nil => cases cols <;> simp [setTitles]
  | cons f t ih =>
    cases cols with
    | nil => simp [setTitles]
    | cons c cs =>
      cases f with
      | none => simp [setTitles]
      | some sf => simp [setTitles, fieldSkeleton, ih cs]

/-- Row-number column lookup: entry r of the synthesized index column is the
row number r. -/
theorem rangeVals_getD (n r : Nat) (h : r < n) :
    (rangeVals n).getD r Val.vnone = Val.vint (Int.ofNat r) := by
  unfold rangeVals
  rw [List.getD_eq_getElem?_getD, List.getElem?_map, List.getElem?_range h]
  rfl

/-- Variant of rangeVals_getD phrased through getElem?. -/
theorem rangeVals_getElem? (n r : Nat) (h : r < n) :
    (rangeVals n)[r]?.getD Val.vnone = Val.vint (Int.ofNat r) := by
  rw [← List.getD_eq_getElem?_getD]
  exact rangeVals_getD n r h

/-- C1 counterexample: assigning to the populated resource resC1 a
replacement table whose column set (key, c) differs from the schema
field-name set (key, b) raises no error at all; the setter silently renames
column c to the canonical name b, merely recording the label c as b's
title. -/
theorem C1_counterexample :
    setData resC1 dfC1 =
      ({ resC1 with
          schema := some ⟨[some ⟨"key", some "key", []⟩, some ⟨"b", some "c", []⟩], some ["key"]⟩,
          df := ⟨[("key", [Val.vint 3])], [("b", [Val.vint 4])], 1⟩ }, none) := by decide

/-- C2 counterexample: generating a schema for a two-column table from the
one-field template fmtC2 succeeds and returns a schema whose slot 1 is
unset, rather than failing; assigning the data then installs that
null-bearing schema on the resource and fails afterwards with a TypeError
from the title-refresh loop, not with any schema-generation error. -/
theorem C2_counterexample :
    generate_schema resC2 dfC2 = .ok ⟨[some ⟨"a", none, []⟩, none], some ["a"]⟩ ∧
    setData resC2 dfC2 =
      ({ resC2 with schema := some ⟨[some ⟨"a", some "x", []⟩, none], some ["a"]⟩ },
        some (Err.typeError "NoneType object does not support item assignment")) := by decide

/-- C3 counterexample: for the template fmtC3 whose primary key b is not a
prefix of the field order, reconciling rowsC3, serializing, and reconciling
the records back into a fresh resource with the same template yields a
table with different row values (the values of a and b are swapped),
refuting the round-trip law as stated. -/
theorem C3_counterexample :
    setData resC3 rowsC3 = (resC3r1, none) ∧
    fromDict (serialize resC3r1) = some dfC3back ∧
    setData resC3 dfC3back = (resC3r2, none) ∧
    resC3r2.df ≠ resC3r1.df := by decide

/-- C4 counterexample: serializing resC4, whose table has no promoted key
(implicit default 0-based row numbering), synthesizes an index column of row
numbers as the leading entry of every record, contrary to the claim that no
key column is synthesized. -/
theorem C4_counterexample :
    has_user_defined_index resC4.df = false ∧
    serialize resC4 =
      [[("index", Val.vint 0), ("a", Val.vint 7)], [("index", Val.vint 1), ("a", Val.vint 8)]] ∧
    ¬ (serialize resC4).map (fun r => r.map Prod.fst) = [["a"], ["a"]] := by decide

/-- C5 counterexample: resC5 holds a schema (field x, primary key x)
together with an empty table; assigning data regenerates the schema from the
format, changing the field name from x to y and the primaryKey from x to y,
refuting the claim that for every resource whose schema is set a data
assignment leaves everything but titles unchanged. -/
theorem C5_counterexample :
    resC5.schema = some ⟨[some ⟨"x", none, []⟩], some ["x"]⟩ ∧
    setData resC5 dfC5 =
      ({ resC5 with
          schema := some ⟨[some ⟨"y", some "t", []⟩], some ["y"]⟩,
          df := ⟨[("y", [Val.vint 1])], [], 1⟩ }, none) := by decide

/-- C6 counterexample: reconciling the non-empty table dfC6 into the fresh
resource resC6 succeeds, but because the primary key consumes the only
column, the stored table has no value columns, pandas counts it as empty,
and populated() returns false rather than true after a non-empty
reconciliation. -/
theorem C6_counterexample :
    DF.isEmpty dfC6 = false ∧
    setData resC6 dfC6 = (resC6r, none) ∧
    resourceBool resC6r = .ok false := by decide

/-- C9 counterexample: validate("red", (type string, enum red or blue)) does
not succeed but raises a KeyError, because the source reads
interface["null"] unconditionally and the claimed interface has no null key;
and validate(null, (type string, null false)) raises InvalidTypeError, not
InvalidValueError, because the runtime type check precedes the nullability
check. -/
theorem C9_counterexample :
    set_argument_checks ifaceEnum (Val.vstr "red") = .error (.keyError "null") ∧
    set_argument_checks ifaceNullFalse Val.vnone =
      .error (.invalidType "string" PyType.tNone) := by decide

/-- C5 amended: for every resource that is populated (schema set and table
non-empty), every data assignment - whether it succeeds or raises - never
regenerates the schema and leaves its field names, field order, field
count, metadata and primaryKey unmodified; only field titles may change.
(The claim as stated fails for a resource holding a schema with an empty
table, whose schema is regenerated: see the counterexample.) -/
theorem C5_theorem (res : Resource) (data : DF) (h : resourceBool res = .ok true) :
    schemaSkeleton (setData res data).1 = schemaSkeleton res := by
  obtain ⟨hsome, hne⟩ := (resourceBool_ok_true_iff res).1 h
  obtain ⟨sch, hsch⟩ := Option.isSome_iff_exists.1 hsome
  have hskel : (setTitles sch.fields
      ((if has_user_defined_index data then data.resetIndex else data).columns)).1.map
        fieldSkeleton = sch.fields.map fieldSkeleton :=
    setTitles_fst_map_skeleton sch.fields _
  unfold setData reconcileWith
  rw [h, hsch]
  dsimp only
  repeat' split
  all_goals simp [schemaSkeleton, hsch, hskel, setTitles_fst_map_skeleton]

/-- C5 witness: the populated fixture resC1 satisfies the hypothesis of the
amended theorem, and its schema skeleton survives the assignment of dfC1. -/
theorem C5_witness :
    resourceBool resC1 = .ok true ∧
      schemaSkeleton (setData resC1 dfC1).1 = schemaSkeleton resC1 :=
  ⟨by decide, C5_theorem resC1 dfC1 (by decide)⟩

/-- C4 amended: serialize emits one record per row with row order preserved,
each record mapping column name to value taken from that row; if the table
has a promoted key it is demoted to leading plain columns; if the table has
no promoted key, reset_index synthesizes a leading "index" column holding
the 0-based row numbers in every record (the claim wrongly states that no
key column is synthesized in that case). -/
theorem C4_theorem (res : Resource) :
    (serialize res).length = res.df.nrows ∧
    (res.df.indexCols = [] →
      serialize res = (List.range res.df.nrows).map (fun r =>
        ("index", Val.vint (Int.ofNat r)) ::
          res.df.valueCols.map (fun c => (c.fst, c.snd.getD r Val.vnone)))) ∧
    (res.df.indexCols ≠ [] →
      serialize res = (List.range res.df.nrows).map (fun r =>
        (res.df.indexCols ++ res.df.valueCols).map
          (fun c => (c.fst, c.snd.getD r Val.vnone)))) := by
  refine ⟨?_, ?_, ?_⟩
  · unfold serialize DF.toRecords DF.resetIndex
    split <;> simp
  · intro hidx
    unfold serialize DF.toRecords DF.resetIndex
    rw [if_pos (by simp [hidx])]
    apply List.map_congr_left
    intro r hr
    have hrn : r < res.df.nrows := List.mem_range.1 hr
    simp only [DF.rowAt, List.map_cons]
    rw [List.getD_eq_getElem?_getD, rangeVals_getElem? res.df.nrows r hrn]
  · intro hidx
    unfold serialize DF.toRecords DF.resetIndex
    rw [if_neg (by simpa using hidx)]
    apply List.map_congr_left
    intro r hr
    simp [DF.rowAt]

/-- C4 witness: the fixture resC4 has a default (non-promoted) index and its
serialization carries the synthesized index column in every record. -/
theorem C4_witness :
    (serialize resC4).length = resC4.df.nrows ∧
      serialize resC4 = (List.range resC4.df.nrows).map (fun r =>
        ("index", Val.vint (Int.ofNat r)) ::
          resC4.df.valueCols.map (fun c => (c.fst, c.snd.getD r Val.vnone))) :=
  ⟨(C4_theorem resC4).1, (C4_theorem resC4).2.1 (by decide)⟩

/-- C10: a range-addressed (two-part slice) template entry never raises the
out-of-range error: its bounds are clamped to the column count, it yields
exactly the clamped in-range clones and leaves every other slot untouched;
a slice lying entirely outside the slots yields zero clones and no error,
while only the single-integer branch can produce the out-of-range
IndexError, as the concrete conjuncts show. -/
theorem C10_theorem :
    (∀ (f : FField) (slots : List (Option SField)) (bs es : String) (b e : Option Int),
      splitOnColon f.index = [bs, es] → parsePart bs = .ok b → parsePart es = .ok e →
      applyFField f slots = .ok (slots.mapIdx (fun j v =>
        if resolveBound slots.length 0 b ≤ j ∧ j < resolveBound slots.length slots.length e then
          some { f.toS with name := f.name ++ toString (j - resolveBound slots.length 0 b) }
        else v))) ∧
    (∀ (n dflt : Nat) (b : Option Int), dflt ≤ n → resolveBound n dflt b ≤ n) ∧
    applyFField ⟨"5:9", "f", none, []⟩ (List.replicate 3 none) = .ok (List.replicate 3 none) ∧
    applyFField ⟨"10", "f", none, []⟩ (List.replicate 3 none) = .error (.oob "10") := by
  refine ⟨?_, ?_, by decide, by decide⟩
  · intro f slots bs es b e hsplit hb he
    unfold applyFField
    rw [hsplit]
    dsimp only
    rw [hb, he]
  · intro n dflt b hd
    unfold resolveBound
    cases b with
    | none => exact hd
    | some i =>
      dsimp only
      split
      · omega
      · omega

/-- C10 witness: the in-range slice 2:5 against six slots clamps to
positions 2, 3, 4 and writes the three offset-named clones there. -/
theorem C10_witness :
    applyFField ⟨"2:5", "f", none, []⟩ (List.replicate 6 none) =
      .ok ((List.replicate 6 (none : Option SField)).mapIdx (fun j v =>
        if resolveBound 6 0 (some 2) ≤ j ∧ j < resolveBound 6 6 (some 5) then
          some { FField.toS ⟨"2:5", "f", none, []⟩ with
                  name := "f" ++ toString (j - resolveBound 6 0 (some 2)) }
        else v)) ∧
      resolveBound 6 6 (some 5) ≤ 6 :=
  ⟨C10_theorem.1 ⟨"2:5", "f", none, []⟩ (List.replicate 6 none) "2" "5" (some 2) (some 5)
      (by decide) (by decide) (by decide),
    C10_theorem.2.1 6 6 (some 5) (by decide)⟩

/-- Processing one format field preserves the slot count. -/
theorem applyFField_length (f : FField) (slots out : List (Option SField))
    (h : applyFField f slots = .ok out) : out.length = slots.length := by
  unfold applyFField at h
  cases hsp : splitOnColon f.index with
  | nil => rw [hsp] at h; cases h
  | cons bs tail =>
    cases tail with
    | nil =>
      rw [hsp] at h
      dsimp only at h
      cases hpi : pyToInt f.index with
      | none => rw [hpi] at h; cases h
      | some i =>
        rw [hpi] at h
        dsimp only at h
        split_ifs at h <;> (cases h; simp)
    | cons es tail2 =>
      cases tail2 with
      | nil =>
        rw [hsp] at h
        dsimp only at h
        cases hpb : parsePart bs with
        | error e => rw [hpb] at h; cases h
        | ok b =>
          rw [hpb] at h
          cases hpe : parsePart es with
          | error e => rw [hpe] at h; dsimp only at h; cases h
          | ok e =>
            rw [hpe] at h
            dsimp only at h
            cases h
            simp
      | cons _ _ => rw [hsp] at h; cases h

/-- Processing a whole template preserves the slot count. -/
theorem genFields_length (fs : List FField) (slots out : List (Option SField))
    (h : genFields fs slots = .ok out) : out.length = slots.length := by
  induction fs generalizing slots with
  | nil => cases h; rfl
  | cons f fs ih =>
    unfold genFields at h
    cases ha : applyFField f slots with
    | error e => rw [ha] at h; dsimp only at h; cases h
    | ok s2 =>
      rw [ha] at h
      dsimp only at h
      rw [ih s2 h, applyFField_length f slots s2 ha]

/-- Slot j after one format field is processed: the field's clone when it
covers j, the previous slot value otherwise. -/
theorem applyFField_getD (f : FField) (slots out : List (Option SField))
    (h : applyFField f slots = .ok out) (j : Nat) (hj : j < slots.length) :
    out.getD j none = (match cloneAt f slots.length j with
                       | some v => some v
                       | none => slots.getD j none) := by
  unfold applyFField at h
  unfold cloneAt
  cases hsp : splitOnColon f.index with
  | nil => rw [hsp] at h; cases h
  | cons bs tail =>
    cases tail with
    | nil =>
      rw [hsp] at h
      dsimp only at h ⊢
      cases hpi : pyToInt f.index with
      | none => rw [hpi] at h; cases h
      | some i =>
        rw [hpi] at h
        dsimp only at h ⊢
        by_cases h1 : 0 ≤ i ∧ i < (slots.length : Int)
        · rw [if_pos h1] at h ⊢
          cases h
          rw [List.getD_eq_getElem?_getD, List.getElem?_set]
          by_cases h2 : i.toNat = j
          · simp [h2, hj]
          · simp [h2, List.getD_eq_getElem?_getD]
        · rw [if_neg h1] at h ⊢
          by_cases h2 : i < 0 ∧ -i ≤ (slots.length : Int)
          · rw [if_pos h2] at h ⊢
            cases h
            rw [List.getD_eq_getElem?_getD, List.getElem?_set]
            by_cases h3 : (i + (slots.length : Int)).toNat = j
            · simp [h3, hj]
            · simp [h3, List.getD_eq_getElem?_getD]
          · rw [if_neg h2] at h
            cases h
    | cons es tail2 =>
      cases tail2 with
      | nil =>
        rw [hsp] at h
        dsimp only at h ⊢
        cases hpb : parsePart bs with
        | error e => rw [hpb] at h; cases h
        | ok b =>
          rw [hpb] at h
          cases hpe : parsePart es with
          | error e => rw [hpe] at h; dsimp only at h; cases h
          | ok e =>
            rw [hpe] at h
            dsimp only at h ⊢
            cases h
            have hv := List.getElem?_eq_getElem hj
            rw [List.getD_eq_getElem?_getD, List.getElem?_mapIdx, hv]
            by_cases hc : resolveBound slots.length 0 b ≤ j ∧
                j < resolveBound slots.length slots.length e
            · simp [hc]
            · simp [hc, List.getD_eq_getElem?_getD, hv]
      | cons _ _ => rw [hsp] at h; cases h

/-- Last-write-wins: slot j of the generated fields is the clone written by
the last template field covering j, untouched otherwise. -/
theorem genFields_getD (fs : List FField) (slots out : List (Option SField))
    (h : genFields fs slots = .ok out) (j : Nat) (hj : j < slots.length) :
    out.getD j none = (match lastWrite fs slots.length j with
                       | some v => some v
                       | none => slots.getD j none) := by
  induction fs generalizing slots with
  | nil =>
    cases h
    simp [lastWrite]
  | cons f fs ih =>
    unfold genFields at h
    cases ha : applyFField f slots with
    | error e => rw [ha] at h; dsimp only at h; cases h
    | ok s2 =>
      rw [ha] at h
      dsimp only at h
      have hlen : s2.length = slots.length := applyFField_length f slots s2 ha
      have h2 := ih s2 h (hlen ▸ hj)
      rw [hlen] at h2
      have h1 := applyFField_getD f slots s2 ha j hj
      unfold lastWrite at h2 ⊢
      rw [List.reverse_cons, List.findSome?_append]
      cases hlw : fs.reverse.findSome? (fun g => cloneAt g slots.length j) with
      | some v =>
        rw [hlw] at h2
        rw [h2]
        rfl
      | none =>
        rw [hlw] at h2
        rw [h2, h1]
        cases hcl : cloneAt f slots.length j <;> simp [List.findSome?, hcl]

/-- C7: schema generation processes template fields in template order with
last-write-wins on overlap (slot j holds the clone of the last template
entry covering j); entries over positions 0:3 then 1:2 leave position 1
carrying the second entry's field g0 with positions 0 and 2 keeping the
first entry's clones f0 and f2; and a 2:5 range with base name f against 6
columns yields exactly f0, f1, f2 at positions 2, 3, 4. -/
theorem C7_theorem :
    (∀ (fs : List FField) (slots out : List (Option SField)) (j : Nat),
      genFields fs slots = .ok out → j < slots.length →
      out.getD j none = (match lastWrite fs slots.length j with
                         | some v => some v
                         | none => slots.getD j none)) ∧
    genFields [⟨"0:3", "f", none, []⟩, ⟨"1:2", "g", none, []⟩] (List.replicate 3 none) =
      .ok [some ⟨"f0", none, []⟩, some ⟨"g0", none, []⟩, some ⟨"f2", none, []⟩] ∧
    genFields [⟨"2:5", "f", none, []⟩] (List.replicate 6 none) =
      .ok [none, none, some ⟨"f0", none, []⟩, some ⟨"f1", none, []⟩,
           some ⟨"f2", none, []⟩, none] :=
  ⟨fun fs slots out j h hj => genFields_getD fs slots out h j hj, by decide, by decide⟩

/-- C7 witness: in the 0:3 before 1:2 example, slot 1 is resolved through
the last-write-wins rule at a concrete input. -/
theorem C7_witness :
    [some (⟨"f0", none, []⟩ : SField), some ⟨"g0", none, []⟩, some ⟨"f2", none, []⟩].getD 1 none =
      (match lastWrite [⟨"0:3", "f", none, []⟩, ⟨"1:2", "g", none, []⟩]
          (List.replicate 3 (none : Option SField)).length 1 with
       | some v => some v
       | none => (List.replicate 3 (none : Option SField)).getD 1 none) :=
  C7_theorem.1 [⟨"0:3", "f", none, []⟩, ⟨"1:2", "g", none, []⟩]
    (List.replicate 3 none)
    [some ⟨"f0", none, []⟩, some ⟨"g0", none, []⟩, some ⟨"f2", none, []⟩] 1
    (by decide) (by decide)

/-- Template processing splits over list append: the first segment runs, and
on success the second segment continues from its output. -/
theorem genFields_append (l1 l2 : List FField) (slots : List (Option SField)) :
    genFields (l1 ++ l2) slots =
      match genFields l1 slots with
      | .error e => .error e
      | .ok s => genFields l2 s := by
  induction l1 generalizing slots with
  | nil => rfl
  | cons f fs ih =>
    show (match applyFField f slots with
          | Except.error e => Except.error e
          | Except.ok s2 => genFields (fs ++ l2) s2) =
        match (match applyFField f slots with
              | Except.error e => Except.error e
              | Except.ok s2 => genFields fs s2) with
        | Except.error e => Except.error e
        | Except.ok s => genFields l2 s
    cases applyFField f slots with
    | error e => rfl
    | ok s2 => exact ih s2

/-- C8: a template entry whose single integer position resolves outside
[0, C) for a C-column table (after negative wrap; earlier entries having
processed without error) makes schema generation fail with the re-raised
IndexError carrying the offending position spec, the resource name, the
template field names, and the data. -/
theorem C8_theorem (res : Resource) (data : DF) (pre post : List FField) (f : FField)
    (i : Int) (slots1 : List (Option SField))
    (hfs : res.format.fields = pre ++ f :: post)
    (hpre : genFields pre (List.replicate (schemaSlotCount data) none) = .ok slots1)
    (hsingle : splitOnColon f.index = [f.index])
    (hint : pyToInt f.index = some i)
    (hoob : ((schemaSlotCount data : Int) ≤ i ∨ i < -(schemaSlotCount data : Int))) :
    generate_schema res data =
      .error (.indexOutOfRange f.index res.name (res.format.fields.map FField.name) data) := by
  have hlen : slots1.length = schemaSlotCount data := by
    have := genFields_length pre _ slots1 hpre
    simpa using this
  have happ : applyFField f slots1 = .error (.oob f.index) := by
    unfold applyFField
    rw [hsingle]
    dsimp only
    rw [hint]
    dsimp only
    rw [if_neg (by rw [hlen]; omega), if_neg (by rw [hlen]; omega)]
  have hgf : genFields res.format.fields (List.replicate (schemaSlotCount data) none)
      = .error (.oob f.index) := by
    rw [hfs, genFields_append, hpre]
    show (match applyFField f slots1 with
          | Except.error e => Except.error e
          | Except.ok s2 => genFields post s2) = _
    rw [happ]
  unfold generate_schema
  rw [hgf]

/-- C8 witness: a template entry at position 10 against a three-column table
raises the out-of-range error referencing position 10 with full context. -/
theorem C8_witness :
    generate_schema resW8 dfW8 = .error (.indexOutOfRange "10" "r" ["f"] dfW8) :=
  C8_theorem resW8 dfW8 [] [] ⟨"10", "f", none, []⟩ 10 (List.replicate 3 none)
    (by decide) (by decide) (by decide) (by decide) (by decide)

/-- Promoting keys to the index does not change the row count. -/
theorem DF.setIndex_nrows (df d : DF) (keys : List String)
    (h : df.setIndex keys = some d) : d.nrows = df.nrows := by
  unfold DF.setIndex at h
  split at h
  · cases h; rfl
  · cases h

/-- Demoting the index does not change the row count. -/
theorem DF.resetIndex_nrows (df : DF) : df.resetIndex.nrows = df.nrows := by
  unfold DF.resetIndex
  split <;> rfl

/-- Renaming columns does not change the row count. -/
theorem DF.renameCols_nrows (df : DF) (names : List String) :
    (df.renameCols names).nrows = df.nrows := rfl

/-- Successful reconciliation installs a schema built from the one in hand
and a table with the incoming row count. -/
theorem reconcileWith_none_inv (res res' : Resource) (data : DF) (sch : Schema)
    (h : reconcileWith res data sch = (res', none)) :
    res'.schema.isSome = true ∧ res'.df.nrows = data.nrows := by
  unfold reconcileWith at h
  dsimp only at h
  repeat' split at h
  all_goals cases h
  all_goals
    (rename_i data2 hren xopt pk hpk xdopt data3 hsi hudi
     refine ⟨rfl, ?_⟩
     show data3.nrows = data.nrows
     rw [DF.setIndex_nrows data2 data3 pk hsi]
     split_ifs at hren with h1 h2 <;> cases hren <;>
       simp [DF.renameCols_nrows, DF.resetIndex_nrows])

/-- Successful data assignment installs a schema and stores a table with the
incoming row count. -/
theorem setData_none_inv (res : Resource) (data : DF) (res' : Resource)
    (h : setData res data = (res', none)) :
    res'.schema.isSome = true ∧ res'.df.nrows = data.nrows := by
  unfold setData at h
  repeat' split at h
  any_goals (exfalso; simp at h)
  all_goals exact reconcileWith_none_inv res res' data _ h

/-- C6 amended: populated() is true iff the table is non-empty and the
schema is set, false iff the table is empty (pandas counts a table whose
columns were all promoted to the key as empty), and raises exactly for a
non-empty table with no schema; a freshly constructed resource with no
records is unpopulated with no schema; and a successful non-empty
reconciliation that leaves at least one non-key value column makes
populated() true. -/
theorem C6_theorem :
    (∀ res : Resource,
      resourceBool res = .ok true ↔ (res.schema.isSome = true ∧ res.df.isEmpty = false)) ∧
    (∀ res : Resource, resourceBool res = .ok false ↔ res.df.isEmpty = true) ∧
    (∀ res : Resource,
      (∃ e, resourceBool res = .error e) ↔ (res.schema = none ∧ res.df.isEmpty = false)) ∧
    (∀ (name : String) (fmt : FormatT) (res : Resource),
      initResource name (some fmt) none [] = .ok res →
      resourceBool res = .ok false ∧ res.schema = none) ∧
    (∀ (res : Resource) (data : DF) (res' : Resource),
      setData res data = (res', none) → 1 ≤ data.nrows → res'.df.valueCols ≠ [] →
      resourceBool res' = .ok true) := by
  refine ⟨resourceBool_ok_true_iff, resourceBool_ok_false_iff, resourceBool_error_iff,
    ?_, ?_⟩
  · intro name fmt res h
    unfold initResource at h
    dsimp only [fromDict] at h
    cases h
    exact ⟨rfl, rfl⟩
  · intro res data res' h hrows hcols
    obtain ⟨hsome, hnr⟩ := setData_none_inv res data res' h
    rw [resourceBool_ok_true_iff]
    refine ⟨hsome, ?_⟩
    unfold DF.isEmpty
    rw [hnr]
    simp [List.isEmpty_iff]
    exact ⟨by omega, hcols⟩

/-- C6 witness: the populated/empty characterizations applied to concrete
resources, including a successful reconciliation ending populated. -/
theorem C6_witness :
    resourceBool resC3r1 = .ok true ∧ resourceBool resC3r2 = .ok true :=
  ⟨(C6_theorem.1 resC3r1).mpr ⟨by decide, by decide⟩,
    C6_theorem.2.2.2.2 resC3 dfC3back resC3r2 (by decide) (by decide) (by decide)⟩

/-- C9 amended: the validation checks run in source order - resource-backed
profile (InvalidProfileError), runtime type (InvalidTypeError), enum
membership (InvalidEnumValueError), then nullability (InvalidValueError) -
and a value passing every declared check succeeds, provided the interface
carries the "null" key that the source reads unconditionally.
validate(5, type string) raises InvalidTypeError; validate("red",
type string, enum red or blue, null true) succeeds; validate(null,
type string, null false) raises InvalidTypeError, because the type check
precedes the null check; the nullability error arises for an empty value
that passes the type check, as in validate("", type string, null false). -/
theorem C9_theorem :
    (∀ (iface : Interface) (v : Val),
      (iface.profile = some "tabular-data-resource" ∨
        iface.profile = some "parameter-tabular-data-resource") →
      set_argument_checks iface v = .error (.invalidProfile iface.profile)) ∧
    (∀ (iface : Interface) (v : Val),
      ¬(iface.profile = some "tabular-data-resource" ∨
        iface.profile = some "parameter-tabular-data-resource") →
      TYPE_MAP iface.type ≠ some (typeOfVal v) →
      set_argument_checks iface v = .error (.invalidType iface.type (typeOfVal v))) ∧
    (∀ (iface : Interface) (v : Val) (nb : Bool),
      ¬(iface.profile = some "tabular-data-resource" ∨
        iface.profile = some "parameter-tabular-data-resource") →
      TYPE_MAP iface.type = some (typeOfVal v) →
      (∀ entries, iface.enum = some entries → entries.isEmpty = false →
        (entries.map EnumEntry.value).any (fun a => pyEq v a) = true) →
      iface.null = some nb →
      (nb = false → pyTruthy v = true) →
      set_argument_checks iface v = .ok ()) ∧
    set_argument_checks ⟨none, "string", none, none⟩ (Val.vint 5) =
      .error (.invalidType "string" PyType.tInt) ∧
    set_argument_checks ⟨none, "string", some [⟨Val.vstr "red"⟩, ⟨Val.vstr "blue"⟩], some true⟩
      (Val.vstr "red") = .ok () ∧
    set_argument_checks ifaceNullFalse Val.vnone =
      .error (.invalidType "string" PyType.tNone) ∧
    set_argument_checks ifaceNullFalse (Val.vstr "") =
      .error (.invalidValue (Val.vstr "")) := by
  refine ⟨?_, ?_, ?_, by decide, by decide, by decide, by decide⟩
  · intro iface v h
    unfold set_argument_checks
    rw [if_pos ?_]
    cases h with
    | inl h => simp [h]
    | inr h => simp [h]
  · intro iface v hprof hty
    unfold set_argument_checks
    rw [if_neg (by simp only [Bool.or_eq_true, decide_eq_true_eq]; exact hprof)]
    dsimp only
    cases hm : TYPE_MAP iface.type with
    | none => simp
    | some t =>
      have hne : (t == typeOfVal v) = false := by
        rw [hm] at hty
        simp only [beq_eq_false_iff_ne, ne_eq]
        intro hh
        exact hty (by rw [hh])
      simp [hne]
  · intro iface v nb hprof hty henum hnull hnb
    unfold set_argument_checks
    rw [if_neg (by simp only [Bool.or_eq_true, decide_eq_true_eq]; exact hprof)]
    dsimp only
    rw [hty, hnull]
    cases he : iface.enum with
    | none =>
      cases nb with
      | true => simp
      | false => simp [hnb rfl]
    | some entries =>
      cases hie : entries.isEmpty with
      | true =>
        cases nb with
        | true => simp [hie]
        | false => simp [hie, hnb rfl]
      | false =>
        have hany := henum entries he hie
        cases nb with
        | true => simp [hie, hany]
        | false => simp [hie, hany, hnb rfl]

/-- C9 witness: the ordered checks applied at concrete inputs through the
general parts of the theorem. -/
theorem C9_witness :
    set_argument_checks ⟨some "tabular-data-resource", "string", none, none⟩ (Val.vint 1) =
      .error (.invalidProfile (some "tabular-data-resource")) ∧
    set_argument_checks ⟨none, "string", none, some true⟩ (Val.vstr "ok") = .ok () :=
  ⟨C9_theorem.1 ⟨some "tabular-data-resource", "string", none, none⟩ (Val.vint 1)
      (Or.inl rfl),
    C9_theorem.2.2.1 ⟨none, "string", none, some true⟩ (Val.vstr "ok") true
      (by simp) (by decide) (fun entries he _ => by cases he) (by decide)
      (fun hh => by cases hh)⟩

/-- Generated schemas have exactly one field slot per (demoted) data
column. -/
theorem generate_schema_fields_length (res : Resource) (data : DF) (sch : Schema)
    (h : generate_schema res data = .ok sch) :
    sch.fields.length = schemaSlotCount data := by
  unfold generate_schema at h
  cases hg : genFields res.format.fields (List.replicate (schemaSlotCount data) none) with
  | error e =>
    rw [hg] at h
    cases e <;> (dsimp only at h; cases h)
  | ok slots =>
    rw [hg] at h
    dsimp only at h
    cases h
    have := genFields_length _ _ _ hg
    simpa using this

/-- The title-refresh loop fails with the TypeError on a field array holding
an unset slot (when there are at least as many columns as fields), and the
unset slot survives in the resulting fields. -/
theorem setTitles_none (flds : List (Option SField)) (cols : List String)
    (hmem : none ∈ flds) (hlen : cols.length = flds.length) :
    (setTitles flds cols).2 =
      some (Err.typeError "NoneType object does not support item assignment") ∧
    none ∈ (setTitles flds cols).1 := by
  induction flds generalizing cols with
  | nil => simp at hmem
  | cons f t ih =>
    cases cols with
    | nil => simp at hlen
    | cons c cs =>
      cases f with
      | none => exact ⟨rfl, List.mem_cons_self none t⟩
      | some sf =>
        have hm : none ∈ t := by
          rcases List.mem_cons.1 hmem with h | h
          · cases h
          · exact h
        have hih := ih cs hm (by simpa using hlen)
        exact ⟨hih.1, List.mem_cons_of_mem _ hih.2⟩

/-- C2 amended: schema generation itself performs no completeness check - it
succeeds with unset slots - and assigning the data installs the null-bearing
schema on the resource; the reconciliation then fails with a TypeError when
the title-refresh loop reaches the first unset slot, leaving the schema
containing null fields installed. -/
theorem C2_theorem (res : Resource) (data : DF) (sch : Schema)
    (hbool : resourceBool res = .ok false)
    (hgen : generate_schema res data = .ok sch)
    (hnone : none ∈ sch.fields)
    (hidx : data.indexCols = []) :
    (setData res data).2 =
      some (Err.typeError "NoneType object does not support item assignment") ∧
    ∃ sch', (setData res data).1.schema = some sch' ∧ none ∈ sch'.fields := by
  have hudi : has_user_defined_index data = false := by
    unfold has_user_defined_index
    rw [hidx]
    rfl
  have hlen : sch.fields.length = data.ncols := by
    have hl := generate_schema_fields_length res data sch hgen
    rw [hl]
    unfold schemaSlotCount
    simp [hudi]
  obtain ⟨hte, hmem⟩ := setTitles_none sch.fields data.columns hnone
    (by unfold DF.columns; rw [List.length_map, hlen]; rfl)
  have hrec : reconcileWith res data sch =
      ({ res with schema := some ⟨(setTitles sch.fields data.columns).1, sch.primaryKey⟩ },
        some (Err.typeError "NoneType object does not support item assignment")) := by
    unfold reconcileWith
    dsimp only
    simp only [hudi, Bool.false_eq_true, if_false]
    rw [hte]
  unfold setData
  rw [hbool]
  dsimp only
  rw [hgen]
  dsimp only
  rw [hrec]
  exact ⟨rfl, ⟨⟨(setTitles sch.fields data.columns).1, sch.primaryKey⟩, rfl, hmem⟩⟩

/-- C2 witness: the one-field template against a two-column table leaves
slot 1 unset; assignment installs the null-bearing schema and fails with
the TypeError. -/
theorem C2_witness :
    (setData resC2 dfC2).2 =
      some (Err.typeError "NoneType object does not support item assignment") ∧
    ∃ sch', (setData resC2 dfC2).1.schema = some sch' ∧ none ∈ sch'.fields :=
  C2_theorem resC2 dfC2 ⟨[some ⟨"a", none, []⟩, none], some ["a"]⟩
    (by decide) (by decide) (by decide) (by decide)

/-- Renaming a frame's columns to their own names is the identity. -/
theorem zipWith_fst_self (l : List (String × List Val)) :
    List.zipWith (fun n c => (n, c.snd)) (l.map Prod.fst) l = l := by
  induction l with
  | nil => rfl
  | cons a t ih => simp [ih]

/-- Renaming to the current column labels changes nothing. -/
theorem renameCols_self (df : DF) : df.renameCols df.columns = df := by
  unfold DF.renameCols DF.columns
  rw [zipWith_fst_self]

/-- Positional rename with matching arity installs exactly the given
names. -/
theorem zipWith_pair_map_fst (names : List String) (l : List (String × List Val))
    (h : names.length = l.length) :
    (List.zipWith (fun n c => (n, c.snd)) names l).map Prod.fst = names := by
  induction names generalizing l with
  | nil => rfl
  | cons n t ih =>
    cases l with
    | nil => simp at h
    | cons a r => simp [ih r (by simpa using h)]

/-- Column labels after a positional rename with matching arity. -/
theorem renameCols_columns (df : DF) (names : List String)
    (h : names.length = df.valueCols.length) :
    (df.renameCols names).columns = names := by
  unfold DF.renameCols DF.columns
  exact zipWith_pair_map_fst names df.valueCols h

/-- find? by column name succeeds when the name is among the columns. -/
theorem find?_fst_isSome (l : List (String × List Val)) (k : String)
    (h : k ∈ l.map Prod.fst) :
    (l.find? (fun c => c.fst = k)).isSome := by
  rw [List.find?_isSome]
  obtain ⟨c, hc, hck⟩ := List.mem_map.1 h
  exact ⟨c, hc, by simp [hck]⟩

/-- Collecting the key columns succeeds when every key names a column, and
the collected columns carry exactly the key names in key order. -/
theorem mapM_find?_some (keys : List String) (l : List (String × List Val))
    (h : ∀ k ∈ keys, k ∈ l.map Prod.fst) :
    ∃ cols, keys.mapM (fun k => l.find? (fun c => c.fst = k)) = some cols ∧
      cols.map Prod.fst = keys := by
  induction keys with
  | nil => exact ⟨[], rfl, rfl⟩
  | cons k ks ih =>
    obtain ⟨cols, hcols, hfst⟩ := ih (fun a ha => h a (List.mem_cons_of_mem _ ha))
    have hk := find?_fst_isSome l k (h k (List.mem_cons_self _ _))
    obtain ⟨c, hc⟩ := Option.isSome_iff_exists.1 hk
    have hcfst : c.fst = k := by simpa using List.find?_some hc
    refine ⟨c :: cols, ?_, by simp [hcfst, hfst]⟩
    rw [List.mapM_cons, hc, hcols]
    rfl

/-- set_index succeeds when every key names a column: the index carries the
keys in order and the remaining value columns are the non-key columns in
their prior order. -/
theorem setIndex_spec (df : DF) (keys : List String)
    (h : ∀ k ∈ keys, k ∈ df.columns) :
    ∃ d, df.setIndex keys = some d ∧ d.indexCols.map Prod.fst = keys ∧
      d.valueCols = df.valueCols.filter (fun c => !(keys.contains c.fst)) ∧
      d.nrows = df.nrows := by
  obtain ⟨cols, hm, hfst⟩ := mapM_find?_some keys df.valueCols h
  refine ⟨⟨cols, df.valueCols.filter (fun c => !(keys.contains c.fst)), df.nrows⟩,
    ?_, hfst, rfl, rfl⟩
  unfold DF.setIndex
  rw [hm]

/-- Filtering by a predicate on the column name commutes with taking the
column names. -/
theorem filter_map_fst (l : List (String × List Val)) (p : String → Bool) :
    (l.filter (fun c => p c.fst)).map Prod.fst = (l.map Prod.fst).filter p := by
  induction l with
  | nil => rfl
  | cons a t ih => by_cases hp : p a.fst <;> simp [List.filter_cons, hp, ih]

/-- Title refresh over fully-set fields with matching arity: every field
gets the corresponding column label as title and no error is raised. -/
theorem setTitles_all_some (sfs : List SField) (cols : List String)
    (h : cols.length = sfs.length) :
    setTitles (sfs.map some) cols =
      (List.zipWith (fun f c => some { f with title := some c }) sfs cols, none) := by
  induction sfs generalizing cols with
  | nil =>
    cases cols with
    | nil => rfl
    | cons c cs => simp at h
  | cons f t ih =>
    cases cols with
    | nil => simp at h
    | cons c cs =>
      have hih := ih cs (by simpa using h)
      simp [setTitles, hih]

/-- Field names after the title refresh are the canonical names. -/
theorem namesOfFields_zipWith (sfs : List SField) (cols : List String)
    (h : cols.length = sfs.length) :
    namesOfFields (List.zipWith (fun f c => some { f with title := some c }) sfs cols) =
      .ok (sfs.map SField.name) := by
  induction sfs generalizing cols with
  | nil => rfl
  | cons f t ih =>
    cases cols with
    | nil => simp at h
    | cons c cs =>
      have hih := ih cs (by simpa using h)
      simp [namesOfFields, hih]

/-- C1 amended: for a populated resource whose schema is fully set with a
primary key among the field names, assigning any same-arity default-index
table succeeds with no mismatch check at all: the schema keeps its canonical
field names (titles are refreshed to the incoming labels, so a renamed
column is silently accepted), the table's columns are renamed positionally
to the canonical names, and the key columns are promoted. -/
theorem C1_theorem (res : Resource) (data : DF) (sch : Schema) (sfs : List SField)
    (pk : List String)
    (hbool : resourceBool res = .ok true)
    (hsch : res.schema = some sch)
    (hflds : sch.fields = sfs.map some)
    (hpk : sch.primaryKey = some pk)
    (hidx : data.indexCols = [])
    (hlen : data.ncols = sfs.length)
    (hpkmem : ∀ k ∈ pk, k ∈ sfs.map SField.name) :
    ∃ d3, setData res data =
      ({ res with
          schema := some ⟨List.zipWith (fun f c => some { f with title := some c }) sfs
            data.columns, some pk⟩,
          df := d3 }, none) ∧
      d3.indexCols.map Prod.fst = pk ∧
      d3.columns = (sfs.map SField.name).filter (fun n => !(pk.contains n)) := by
  have hudi : has_user_defined_index data = false := by
    unfold has_user_defined_index
    rw [hidx]
    rfl
  have hclen : data.columns.length = sfs.length := by
    unfold DF.columns
    rw [List.length_map]
    exact hlen
  have hnlen : (sfs.map SField.name).length = data.valueCols.length := by
    rw [List.length_map]
    exact hlen.symm
  have hren : (data.renameCols (sfs.map SField.name)).columns = sfs.map SField.name :=
    renameCols_columns data (sfs.map SField.name) hnlen
  obtain ⟨d3, hsi, hifst, hvcols, hnr⟩ :=
    setIndex_spec (data.renameCols (sfs.map SField.name)) pk
      (by intro k hk; rw [hren]; exact hpkmem k hk)
  refine ⟨d3, ?_, hifst, ?_⟩
  · unfold setData
    rw [hbool]
    dsimp only
    rw [hsch]
    dsimp only
    unfold reconcileWith
    dsimp only
    simp only [hudi, Bool.false_eq_true, if_false]
    rw [hflds, setTitles_all_some sfs data.columns hclen]
    dsimp only
    rw [namesOfFields_zipWith sfs data.columns hclen]
    dsimp only
    rw [hpk]
    by_cases hceq : data.columns = sfs.map SField.name
    · rw [if_pos hceq]
      dsimp only
      have hid : data.renameCols (sfs.map SField.name) = data := by
        rw [← hceq]
        exact renameCols_self data
      rw [← hid, hsi]
    · rw [if_neg hceq, if_pos (by rw [hclen, List.length_map])]
      dsimp only
      rw [hsi]
  · unfold DF.columns
    have hren2 : (data.renameCols (sfs.map SField.name)).valueCols.map Prod.fst =
        sfs.map SField.name := hren
    rw [hvcols,
      filter_map_fst ((data.renameCols (sfs.map SField.name)).valueCols)
        (fun n => !(pk.contains n)),
      hren2]

/-- C1 witness: the populated fixture resC1 accepts the renamed-column table
dfC1 with no error; the schema keeps names key and b, and the key column is
promoted. -/
theorem C1_witness :
    ∃ d3, setData resC1 dfC1 =
      ({ resC1 with
          schema := some ⟨List.zipWith (fun f c => some { f with title := some c })
            sfsC1 dfC1.columns, some ["key"]⟩,
          df := d3 }, none) ∧
      d3.indexCols.map Prod.fst = ["key"] ∧
      d3.columns = (sfsC1.map SField.name).filter (fun n => !(["key"].contains n)) :=
  C1_theorem resC1 dfC1 schC1 sfsC1 ["key"]
    (by decide) (by decide) (by decide) (by decide) (by decide) (by decide)
    (by decide)

/-- Congruence for mapM over the Option monad. -/
theorem mapM_congr {α β : Type} (l : List α) (f g : α → Option β)
    (h : ∀ a ∈ l, f a = g a) : l.mapM f = l.mapM g := by
  induction l with
  | nil => rfl
  | cons a t ih =>
    rw [List.mapM_cons, List.mapM_cons, h a (List.mem_cons_self _ _),
      ih (fun x hx => h x (List.mem_cons_of_mem _ hx))]

/-- Looking up a leading segment of the column names collects exactly that
leading segment of the columns (names unique). -/
theorem mapM_find?_take (V : List (String × List Val)) (k : Nat)
    (hnodup : (V.map Prod.fst).Nodup) :
    ((V.map Prod.fst).take k).mapM (fun key => V.find? (fun c => c.fst = key)) =
      some (V.take k) := by
  induction V generalizing k with
  | nil => cases k <;> rfl
  | cons c V ih =>
    cases k with
    | zero => rfl
    | succ k =>
      rw [List.map_cons, List.take_succ_cons, List.mapM_cons]
      have hhead : (c :: V).find? (fun x => x.fst = c.fst) = some c :=
        List.find?_cons_of_pos _ (by simp)
      rw [hhead]
      have hrest : ((V.map Prod.fst).take k).mapM
          (fun key => (c :: V).find? (fun x => x.fst = key)) =
          ((V.map Prod.fst).take k).mapM (fun key => V.find? (fun x => x.fst = key)) := by
        apply mapM_congr
        intro key hkey
        apply List.find?_cons_of_neg
        simp only [decide_eq_true_eq]
        intro hck
        exact (List.nodup_cons.1 hnodup).1 (hck ▸ List.take_subset _ _ hkey)
      rw [hrest, ih k (List.nodup_cons.1 hnodup).2]
      rfl

/-- Filtering out a leading segment of the column names keeps exactly the
remaining columns (names unique). -/
theorem filter_not_contains_take (V : List (String × List Val)) (k : Nat)
    (hnodup : (V.map Prod.fst).Nodup) :
    V.filter (fun c => !(((V.map Prod.fst).take k).contains c.fst)) = V.drop k := by
  induction V generalizing k with
  | nil => cases k <;> rfl
  | cons c V ih =>
    cases k with
    | zero => simp
    | succ k =>
      rw [List.map_cons, List.take_succ_cons, List.drop_succ_cons, List.filter_cons]
      have hh : ((c.fst :: (V.map Prod.fst).take k).contains c.fst) = true := by simp
      simp only [hh, Bool.not_true, Bool.false_eq_true, if_false]
      rw [List.filter_congr ?_, ih k (List.nodup_cons.1 hnodup).2]
      intro x hx
      have hxne : x.fst ≠ c.fst := by
        intro hh2
        exact (List.nodup_cons.1 hnodup).1 (hh2 ▸ List.mem_map_of_mem Prod.fst hx)
      simp [hxne]

/-- set_index on a leading segment of the (unique) column names splits the
columns at that point: the segment becomes the index, the rest stays. -/
theorem setIndex_take (df : DF) (k : Nat)
    (hnodup : (df.valueCols.map Prod.fst).Nodup) :
    df.setIndex ((df.valueCols.map Prod.fst).take k) =
      some ⟨df.valueCols.take k, df.valueCols.drop k, df.nrows⟩ := by
  unfold DF.setIndex
  rw [mapM_find?_take df.valueCols k hnodup,
    filter_not_contains_take df.valueCols k hnodup]

/-- Keys of a record row are the column names. -/
theorem rowAt_map_fst (df : DF) (r : Nat) : (df.rowAt r).map Prod.fst = df.columns := by
  unfold DF.rowAt DF.columns
  rw [List.map_map]
  rfl

/-- Looking a column name up in a record row yields that column's value at
the row (names unique). -/
theorem lookupRec_rowAt (V : List (String × List Val)) (c : String × List Val) (r : Nat)
    (hnodup : (V.map Prod.fst).Nodup) (hc : c ∈ V) :
    lookupRec c.fst (V.map (fun d => (d.fst, d.snd.getD r Val.vnone))) =
      some (c.snd.getD r Val.vnone) := by
  induction V with
  | nil => cases hc
  | cons a t ih =>
    rcases List.mem_cons.1 hc with rfl | hct
    · unfold lookupRec
      rw [List.map_cons, List.find?_cons_of_pos _ (by simp)]
      rfl
    · have hane : a.fst ≠ c.fst := by
        intro hh
        exact (List.nodup_cons.1 hnodup).1 (hh ▸ List.mem_map_of_mem Prod.fst hct)
      unfold lookupRec
      rw [List.map_cons, List.find?_cons_of_neg _ (by simp [hane])]
      exact ih (List.nodup_cons.1 hnodup).2 hct

/-- Reading a list back off by position recovers the list. -/
theorem range_map_getD (l : List Val) (n : Nat) (h : l.length = n) :
    (List.range n).map (fun r => l.getD r Val.vnone) = l := by
  induction l generalizing n with
  | nil =>
    subst h
    rfl
  | cons a t ih =>
    subst h
    rw [List.length_cons, List.range_succ_eq_map]
    rw [List.map_cons, List.map_map]
    congr 1
    calc List.map ((fun r => (a :: t).getD r Val.vnone) ∘ Nat.succ) (List.range t.length)
        = List.map (fun r => t.getD r Val.vnone) (List.range t.length) :=
          List.map_congr_left (fun r _ => rfl)
      _ = t := ih t.length rfl

/-- filterMap by an everywhere-defined function is a map. -/
theorem filterMap_eq_map_of_some {α β : Type} (l : List α) (f : α → Option β)
    (g : α → β) (h : ∀ a ∈ l, f a = some (g a)) : l.filterMap f = l.map g := by
  induction l with
  | nil => rfl
  | cons a t ih =>
    rw [List.filterMap_cons, h a (List.mem_cons_self _ _), List.map_cons,
      ih (fun x hx => h x (List.mem_cons_of_mem _ hx))]

/-- from_dict inverts to_dict on a default-index, non-empty, well-formed
frame with unique column names. -/
theorem fromDict_toRecords (df : DF)
    (hidx : df.indexCols = [])
    (hn : 1 ≤ df.nrows)
    (hwf : ∀ c ∈ df.valueCols, c.snd.length = df.nrows)
    (hnodup : (df.valueCols.map Prod.fst).Nodup) :
    fromDict df.toRecords = some df := by
  obtain ⟨m, hm⟩ : ∃ m, df.nrows = m + 1 := ⟨df.nrows - 1, by omega⟩
  have hrec : df.toRecords = df.rowAt 0 :: (List.range m).map (fun r => df.rowAt (r + 1)) := by
    unfold DF.toRecords
    rw [hm, List.range_succ_eq_map, List.map_cons, List.map_map]
    rfl
  have hcolwise : ∀ c ∈ df.valueCols,
      df.toRecords.filterMap (lookupRec c.fst) = c.snd := by
    intro c hc
    unfold DF.toRecords
    rw [List.filterMap_map]
    rw [filterMap_eq_map_of_some _ _ (fun r => c.snd.getD r Val.vnone) ?_]
    · exact range_map_getD c.snd df.nrows (hwf c hc)
    · intro r hr
      exact lookupRec_rowAt df.valueCols c r hnodup hc
  have hkeys : (df.rowAt 0).map Prod.fst = df.columns := rowAt_map_fst df 0
  rw [hrec]
  simp only [fromDict]
  rw [if_pos ?_]
  · rw [← hrec]
    have hlenrec : df.toRecords.length = df.nrows := by
      unfold DF.toRecords
      rw [List.length_map, List.length_range]
    have hcols : ((df.rowAt 0).map Prod.fst).map
        (fun k => (k, df.toRecords.filterMap (lookupRec k))) = df.valueCols := by
      rw [hkeys]
      unfold DF.columns
      rw [List.map_map]
      have : ∀ c ∈ df.valueCols,
          (fun k => (k, df.toRecords.filterMap (lookupRec k))) (Prod.fst c) = c := by
        intro c hc
        dsimp only
        rw [hcolwise c hc]
      calc df.valueCols.map ((fun k => (k, df.toRecords.filterMap (lookupRec k))) ∘ Prod.fst)
          = df.valueCols.map id := List.map_congr_left this
        _ = df.valueCols := List.map_id df.valueCols
    rw [hcols, hlenrec]
    cases df with
    | mk ic vc n =>
      cases hidx
      rfl
  · rw [List.all_eq_true]
    intro rec hmem
    rw [decide_eq_true_eq]
    rcases List.mem_cons.1 hmem with rfl | hr
    · rfl
    · obtain ⟨r, hrmem, rfl⟩ := List.mem_map.1 hr
      rw [rowAt_map_fst, rowAt_map_fst]

/-- Well-formedness of column lengths survives a positional rename. -/
theorem zipWith_snd_wf (names : List String) (L : List (String × List Val)) (n : Nat)
    (h : ∀ d ∈ L, d.snd.length = n) :
    ∀ c ∈ List.zipWith (fun nm d => (nm, d.snd)) names L, c.snd.length = n := by
  induction names generalizing L with
  | nil =>
    intro c hc
    simp at hc
  | cons nm t ih =>
    cases L with
    | nil =>
      intro c hc
      simp at hc
    | cons d R =>
      intro c hc
      rcases List.mem_cons.1 (by simpa using hc) with rfl | hcr
      · exact h d (List.mem_cons_self _ _)
      · exact ih R (fun x hx => h x (List.mem_cons_of_mem _ hx)) c hcr

/-- Field names survive the title refresh. -/
theorem zipWith_titled_names (sfs : List SField) (cols : List String)
    (h : cols.length = sfs.length) :
    (List.zipWith (fun f c => some { f with title := some c }) sfs cols).map
      (fun o => o.map SField.name) = sfs.map (fun f => some f.name) := by
  induction sfs generalizing cols with
  | nil => rfl
  | cons f t ih =>
    cases cols with
    | nil => simp at h
    | cons c cs => simp [ih cs (by simpa using h)]

/-- Assigning a default-index table to an empty resource generates the
schema from the format and installs the renamed, key-promoted table. -/
theorem setData_empty (nm : String) (fmt : FormatT) (data : DF) (sfs : List SField)
    (pk : List String) (d3 : DF)
    (hidx : data.indexCols = [])
    (hgen : genFields fmt.fields (List.replicate data.ncols none) = .ok (sfs.map some))
    (hfpk : fmt.primaryKey = some pk)
    (hsi : (data.renameCols (sfs.map SField.name)).setIndex pk = some d3) :
    setData ⟨nm, fmt, none, emptyDF⟩ data =
      ({ name := nm, format := fmt,
          schema := some ⟨List.zipWith (fun f c => some { f with title := some c }) sfs
            data.columns, some pk⟩,
          df := d3 }, none) := by
  have hudi : has_user_defined_index data = false := by
    unfold has_user_defined_index
    rw [hidx]
    rfl
  have hslen : sfs.length = data.ncols := by
    have := genFields_length _ _ _ hgen
    simpa using this
  have hclen : data.columns.length = sfs.length := by
    unfold DF.columns
    rw [List.length_map]
    exact hslen.symm
  have hgs : generate_schema ⟨nm, fmt, none, emptyDF⟩ data =
      .ok ⟨sfs.map some, some pk⟩ := by
    unfold generate_schema
    have hssc : schemaSlotCount data = data.ncols := by
      unfold schemaSlotCount
      simp [hudi]
    rw [show (⟨nm, fmt, none, emptyDF⟩ : Resource).format.fields = fmt.fields from rfl,
      hssc, hgen]
    dsimp only
    rw [show (⟨nm, fmt, none, emptyDF⟩ : Resource).format.primaryKey = fmt.primaryKey
      from rfl, hfpk]
  unfold setData
  rw [show resourceBool ⟨nm, fmt, none, emptyDF⟩ = .ok false from rfl]
  dsimp only
  rw [hgs]
  dsimp only
  unfold reconcileWith
  dsimp only
  simp only [hudi, Bool.false_eq_true, if_false]
  rw [setTitles_all_some sfs data.columns hclen]
  dsimp only
  rw [namesOfFields_zipWith sfs data.columns hclen]
  dsimp only
  by_cases hceq : data.columns = sfs.map SField.name
  · rw [if_pos hceq]
    dsimp only
    have hid : data.renameCols (sfs.map SField.name) = data := by
      rw [← hceq]
      exact renameCols_self data
    rw [← hid, hsi]
  · rw [if_neg hceq, if_pos (by rw [hclen, List.length_map])]
    dsimp only
    rw [hsi]

/-- C3 amended: the round trip holds when the primary key is a non-empty
leading prefix of the schema field order: reconciling rows against the
template, serializing, and reconciling the records back into a fresh
resource with the same template reproduces the same table (index and value
columns with their values), the same schema field names and order, and the
same primaryKey; titles are refreshed to the canonical names on the second
pass, and the counterexample shows the law fails for a non-prefix key. -/
theorem C3_theorem (nm : String) (fmt : FormatT) (rows : DF) (sfs : List SField)
    (pk : List String)
    (hidx : rows.indexCols = [])
    (hwf : ∀ c ∈ rows.valueCols, c.snd.length = rows.nrows)
    (hrows1 : 1 ≤ rows.nrows)
    (hgen : genFields fmt.fields (List.replicate rows.ncols none) = .ok (sfs.map some))
    (hnodup : (sfs.map SField.name).Nodup)
    (hfpk : fmt.primaryKey = some pk)
    (hpre : pk = (sfs.map SField.name).take pk.length)
    (hpk1 : pk ≠ []) :
    ∃ res1 res2 df2,
      setData ⟨nm, fmt, none, emptyDF⟩ rows = (res1, none) ∧
      fromDict (serialize res1) = some df2 ∧
      setData ⟨nm, fmt, none, emptyDF⟩ df2 = (res2, none) ∧
      res2.df = res1.df ∧
      schemaNames res2 = schemaNames res1 ∧
      res2.schema.map Schema.primaryKey = res1.schema.map Schema.primaryKey := by
  have hslen : sfs.length = rows.ncols := by
    have := genFields_length _ _ _ hgen
    simpa using this
  have hnlen : (sfs.map SField.name).length = rows.valueCols.length := by
    rw [List.length_map]
    exact hslen
  have hVfst : (rows.renameCols (sfs.map SField.name)).valueCols.map Prod.fst =
      sfs.map SField.name := renameCols_columns rows (sfs.map SField.name) hnlen
  have hVlen : (rows.renameCols (sfs.map SField.name)).valueCols.length = rows.ncols := by
    have := congrArg List.length hVfst
    rw [List.length_map, List.length_map] at this
    rw [this]
    exact hslen
  have hk : pk.length ≤ sfs.length := by
    have hh : pk.length = min pk.length (sfs.map SField.name).length := by
      conv_lhs => rw [hpre]
      rw [List.length_take]
    rw [List.length_map] at hh
    omega
  have hk1 : 1 ≤ pk.length := by
    cases pk with
    | nil => exact absurd rfl hpk1
    | cons a t => simp
  have hnodupV : ((rows.renameCols (sfs.map SField.name)).valueCols.map Prod.fst).Nodup := by
    rw [hVfst]
    exact hnodup
  have hsi1 : (rows.renameCols (sfs.map SField.name)).setIndex pk =
      some ⟨(rows.renameCols (sfs.map SField.name)).valueCols.take pk.length,
            (rows.renameCols (sfs.map SField.name)).valueCols.drop pk.length,
            rows.nrows⟩ := by
    have hst := setIndex_take (rows.renameCols (sfs.map SField.name)) pk.length hnodupV
    rw [hVfst, ← hpre] at hst
    exact hst
  have hfirst := setData_empty nm fmt rows sfs pk
    ⟨(rows.renameCols (sfs.map SField.name)).valueCols.take pk.length,
      (rows.renameCols (sfs.map SField.name)).valueCols.drop pk.length,
      rows.nrows⟩ hidx hgen hfpk hsi1
  have hwfV : ∀ c ∈ (rows.renameCols (sfs.map SField.name)).valueCols,
      c.snd.length = rows.nrows :=
    zipWith_snd_wf (sfs.map SField.name) rows.valueCols rows.nrows hwf
  have hVtake : (rows.renameCols (sfs.map SField.name)).valueCols.take pk.length ≠ [] := by
    intro hnil
    have hlen0 := congrArg List.length hnil
    rw [List.length_take, hVlen] at hlen0
    simp only [List.length_nil] at hlen0
    rcases Nat.min_eq_zero_iff.1 hlen0 with h0 | h0
    · omega
    · omega
  have hreset : (⟨(rows.renameCols (sfs.map SField.name)).valueCols.take pk.length,
      (rows.renameCols (sfs.map SField.name)).valueCols.drop pk.length,
      rows.nrows⟩ : DF).resetIndex =
      ⟨[], (rows.renameCols (sfs.map SField.name)).valueCols, rows.nrows⟩ := by
    unfold DF.resetIndex
    rw [if_neg (by simp [List.isEmpty_iff, hVtake])]
    rw [List.take_append_drop]
  have hfd : fromDict (serialize
      { name := nm, format := fmt,
        schema := some ⟨List.zipWith (fun f c => some { f with title := some c }) sfs
          rows.columns, some pk⟩,
        df := ⟨(rows.renameCols (sfs.map SField.name)).valueCols.take pk.length,
               (rows.renameCols (sfs.map SField.name)).valueCols.drop pk.length,
               rows.nrows⟩ }) =
      some ⟨[], (rows.renameCols (sfs.map SField.name)).valueCols, rows.nrows⟩ := by
    unfold serialize
    dsimp only
    rw [hreset]
    exact fromDict_toRecords
      ⟨[], (rows.renameCols (sfs.map SField.name)).valueCols, rows.nrows⟩
      rfl hrows1 hwfV hnodupV
  have hgen2 : genFields fmt.fields (List.replicate
      ((⟨[], (rows.renameCols (sfs.map SField.name)).valueCols, rows.nrows⟩ : DF).ncols)
      none) = .ok (sfs.map some) := by
    rw [show (⟨[], (rows.renameCols (sfs.map SField.name)).valueCols,
      rows.nrows⟩ : DF).ncols = rows.ncols from hVlen]
    exact hgen
  have hceq2 : (⟨[], (rows.renameCols (sfs.map SField.name)).valueCols,
      rows.nrows⟩ : DF).columns = sfs.map SField.name := hVfst
  have hsi2 : ((⟨[], (rows.renameCols (sfs.map SField.name)).valueCols,
      rows.nrows⟩ : DF).renameCols (sfs.map SField.name)).setIndex pk =
      some ⟨(rows.renameCols (sfs.map SField.name)).valueCols.take pk.length,
            (rows.renameCols (sfs.map SField.name)).valueCols.drop pk.length,
            rows.nrows⟩ := by
    nth_rewrite 2 [← hceq2]
    rw [renameCols_self]
    have hst := setIndex_take (⟨[], (rows.renameCols (sfs.map SField.name)).valueCols,
      rows.nrows⟩ : DF) pk.length hnodupV
    rw [show ((⟨[], (rows.renameCols (sfs.map SField.name)).valueCols,
      rows.nrows⟩ : DF).valueCols.map Prod.fst) = sfs.map SField.name from hVfst,
      ← hpre] at hst
    exact hst
  have hsecond := setData_empty nm fmt
    ⟨[], (rows.renameCols (sfs.map SField.name)).valueCols, rows.nrows⟩ sfs pk
    ⟨(rows.renameCols (sfs.map SField.name)).valueCols.take pk.length,
      (rows.renameCols (sfs.map SField.name)).valueCols.drop pk.length,
      rows.nrows⟩ rfl hgen2 hfpk hsi2
  refine ⟨_, _, _, hfirst, hfd, hsecond, rfl, ?_, rfl⟩
  unfold schemaNames
  simp only [Option.map_some']
  rw [zipWith_titled_names sfs
    ((⟨[], (rows.renameCols (sfs.map SField.name)).valueCols, rows.nrows⟩ : DF).columns)
    (by rw [hceq2, List.length_map]),
    zipWith_titled_names sfs rows.columns
    (by unfold DF.columns; rw [List.length_map]; exact hslen.symm)]

/-- C3 witness: the round trip at a concrete prefix-keyed template (fields
key, b with primary key key) and a one-row table. -/
theorem C3_witness :
    ∃ res1 res2 df2,
      setData ⟨"r", fmtC1, none, emptyDF⟩ rowsC3 = (res1, none) ∧
      fromDict (serialize res1) = some df2 ∧
      setData ⟨"r", fmtC1, none, emptyDF⟩ df2 = (res2, none) ∧
      res2.df = res1.df ∧
      schemaNames res2 = schemaNames res1 ∧
      res2.schema.map Schema.primaryKey = res1.schema.map Schema.primaryKey :=
  C3_theorem "r" fmtC1 rowsC3 sfsC1 ["key"] (by decide) (by decide) (by decide)
    (by decide) (by decide) (by decide) (by decide) (by decide)

end Odp
